import Mathlib

/-!
Verification development for the vibe-crawler repository.

The definitions below are a shallow embedding of the crawl orchestration
engine (src/crawler.py), of the console-error detector (src/console_errors.py)
and of the JSON report summary (src/reporter.py).  Pure Python string
operations are modelled on the character list backing a Lean `String`;
Python sets and dicts are modelled by lists with explicit membership tests,
keeping Python's insertion / iteration behaviour visible.  The external
browser (playwright) is modelled as an oracle: a function from URL to a
navigation outcome, to the hrefs found on the page, and to the console /
page-error events fired while the page was loading.
-/

namespace Vibe

/-- Severity enum, crawler.py lines 33-38 (also base.py lines 10-15). -/
inductive Severity where
  | critical
  | high
  | medium
  | low
  | info
deriving DecidableEq, Repr

/-- The string value of a Severity member (`Severity.HIGH.value == "high"`). -/
def Severity.val : Severity → String
  | .critical => "critical"
  | .high => "high"
  | .medium => "medium"
  | .low => "low"
  | .info => "info"

/-- Bug dataclass, crawler.py lines 41-50.  `extra` (a dict) is modelled as an
association list. -/
structure Bug where
  url : String
  category : String
  severity : Severity
  title : String
  description : String
  selector : Option String := none
  screenshot_path : Option String := none
  extra : List (String × String) := []
deriving DecidableEq, Repr

/-- CrawlResult dataclass, crawler.py lines 53-60.  The two wall-clock
timestamps (`started_at`, `finished_at`) are irrelevant to every claim and are
not modelled. -/
structure CrawlResult where
  start_url : String
  pages_visited : Nat := 0
  bugs : List Bug := []
  errors : List String := []
deriving DecidableEq, Repr

/-! ### URL normalization

crawler.py line 104: `clean = href.split("#")[0].rstrip("/")` and
line 158: `self._queue.append(self.start_url.rstrip("/"))`. -/

/-- Python `s.rstrip("/")`: remove every trailing `/` character. -/
def rstripSlash (s : String) : String :=
  ⟨(s.data.reverse.dropWhile (fun c => c == '/')).reverse⟩

/-- Python `s.split("#")[0]`: the longest initial segment before a `#`. -/
def stripFragment (s : String) : String :=
  ⟨s.data.takeWhile (fun c => c != '#')⟩

/-- crawler.py line 104: `href.split("#")[0].rstrip("/")`. -/
def cleanLink (href : String) : String :=
  rstripSlash (stripFragment href)

/-! ### Frontier scheduler (claim C1)

The scheduler state is the pair of crawler attributes `self._visited`
(a Python `set`, modelled as a duplicate-free list) and `self._queue`
(a Python `list` used FIFO), crawler.py lines 93-94.  Its operations are
the seed enqueue (line 158), the pop / skip-if-visited / mark-visited step
of the run loop (lines 161-164), and the offer of discovered candidate
links (lines 136-138). -/

structure Frontier where
  visited : List String
  queue : List String
deriving DecidableEq, Repr

/-- The frontier right after `self._queue.append(self.start_url.rstrip("/"))`
(crawler.py line 158) ran on the freshly initialised crawler
(lines 93-94: both collections start empty). -/
def seedFrontier (startUrl : String) : Frontier :=
  { visited := [], queue := [rstripSlash startUrl] }

/-- One candidate link offered to the frontier, crawler.py lines 137-138:
`if link not in self._visited and link not in self._queue:
self._queue.append(link)`. -/
def offerOne (f : Frontier) (link : String) : Frontier :=
  if link ∉ f.visited ∧ link ∉ f.queue then
    { f with queue := f.queue ++ [link] }
  else
    f

/-- The whole `for link in new_links` loop of crawler.py lines 136-138. -/
def offer (f : Frontier) (links : List String) : Frontier :=
  links.foldl offerOne f

/-- One iteration head of the run loop, crawler.py lines 161-164:
`url = self._queue.pop(0)`; if `url in self._visited` the iteration is
skipped (`continue`), otherwise `self._visited.add(url)` and `url` is handed
to `_crawl_page`.  Returns the URL dequeued for processing (if any) together
with the new frontier. -/
def dequeueStep (f : Frontier) : Option String × Frontier :=
  match f.queue with
  | [] => (none, f)
  | u :: rest =>
    if u ∈ f.visited then
      (none, { f with queue := rest })
    else
      (some u, { visited := u :: f.visited, queue := rest })

/-- A scheduler operation after the seed enqueue: an offer of candidate
links, or one dequeue step of the run loop. -/
inductive SchedOp where
  | offer (links : List String)
  | dequeue
deriving DecidableEq, Repr

/-- Run a sequence of scheduler operations, collecting the trace of URLs
dequeued for processing, in order. -/
def applyOps : Frontier → List SchedOp → Frontier × List String
  | f, [] => (f, [])
  | f, SchedOp.offer ls :: ops => applyOps (offer f ls) ops
  | f, SchedOp.dequeue :: ops =>
    match dequeueStep f with
    | (none, f') => applyOps f' ops
    | (some u, f') =>
      let r := applyOps f' ops
      (r.1, u :: r.2)

/-! ### Console events (src/console_errors.py) -/

/-- A raw browser event fired while a page visit is in progress: a console
message carrying `msg.type` and `msg.text`, or an uncaught page error
carrying `str(error)` (console_errors.py lines 16-25). -/
inductive PageEvent where
  | console (msgType text : String)
  | pageerror (text : String)
deriving DecidableEq, Repr

/-- One buffered entry of `ConsoleErrorDetector._errors`: the dict
`{"type": ..., "text": ...}` (console_errors.py lines 22 and 25). -/
structure ConsoleEntry where
  etype : String
  text : String
deriving DecidableEq, Repr

/-- The handlers installed by `attach` (console_errors.py lines 16-25):
`_on_console` buffers a `console.error` entry only for messages whose type
is `"error"`; `_on_pageerror` always buffers an `unhandled_exception`
entry. -/
def consumeEvent (buf : List ConsoleEntry) : PageEvent → List ConsoleEntry
  | PageEvent.console msgType text =>
    if msgType = "error" then buf ++ [{ etype := "console.error", text := text }]
    else buf
  | PageEvent.pageerror text => buf ++ [{ etype := "unhandled_exception", text := text }]

/-- All events of one page visit, delivered in order to the handlers. -/
def consumeEvents (buf : List ConsoleEntry) (evs : List PageEvent) : List ConsoleEntry :=
  evs.foldl consumeEvent buf

/-- console_errors.py lines 27-42, `detect`: emit one `javascript` bug per
buffered entry (severity `high` for an unhandled exception, else `medium`;
title `"JS <type>"`; description truncated to 500 characters), then
`self._errors.clear()`.  Returns the bugs together with the new, empty
buffer. -/
def consoleDetect (url : String) (buf : List ConsoleEntry) :
    List Bug × List ConsoleEntry :=
  (buf.map (fun err =>
    { url := url
      category := "javascript"
      severity := if err.etype = "unhandled_exception" then Severity.high else Severity.medium
      title := "JS " ++ err.etype
      description := ⟨err.text.data.take 500⟩ }), [])

/-! ### The page automation oracle and the detector contract -/

/-- Outcome of `page.goto(url, wait_until=..., timeout=20000)` followed by the
settle wait (crawler.py lines 112-113).  `failed cause` is the
`except Exception as e` branch (line 114) with `cause = str(e)`;
`loaded status` is a completed navigation, where the returned response object
is `None` (`status = none`) or carries an HTTP status code. -/
inductive NavResult where
  | failed (cause : String)
  | loaded (status : Option Nat)
deriving DecidableEq, Repr

/-- The external world as the crawler sees it through playwright and urllib:
`netloc` is `urllib.parse.urlparse(u).netloc` (an external library, modelled
as an oracle), `nav` the outcome of navigating to a URL, `hrefs` the
`e => e.href` values returned by `page.eval_on_selector_all` on the loaded
page (`none` models that call raising, crawler.py line 139), and `events`
the console / page-error events fired while that URL was being visited
(delivered to handlers attached before any navigation). -/
structure Site where
  netloc : String → String
  nav : String → NavResult
  hrefs : String → Option (List String)
  events : String → List PageEvent

/-- A detector as the Session Runner calls it: a `name` (base.py line 39) and
the `detect(page, url)` coroutine (crawler.py line 129).  A Python exception
raised by `detect` is the `Except.error` case, carrying `str(e)`.  The
detectors modelled here hold no cross-call state, so `detect` is a function
of the URL alone (the loaded page's content is folded into the function). -/
structure Detector where
  name : String
  detect : String → Except String (List Bug)

/-- crawler.py lines 97-98, `_same_origin`: netloc equality against the raw
(un-normalized) `self.start_url`. -/
def sameOrigin (site : Site) (startUrl url : String) : Bool :=
  site.netloc url == site.netloc startUrl

/-- The `for href in hrefs` filter of `_discover_links`, crawler.py
lines 102-106: clean each href, keep it when it is non-empty, same-origin
and not yet visited.  `filterMap` builds the `links` list in href order,
exactly as the `links.append(clean)` loop does. -/
def discoverCandidates (site : Site) (startUrl : String) (visited : List String)
    (hrefs : List String) : List String :=
  hrefs.filterMap (fun href =>
    let clean := cleanLink href
    if clean ≠ "" ∧ sameOrigin site startUrl clean = true ∧ clean ∉ visited then
      some clean
    else
      none)

/-- A function standing for Python's `list(set(links))` at crawler.py
line 107: it must return the distinct elements of its input, but the order
in which a Python `set` of strings iterates depends on the process hash
seed, so the order is a parameter of the model. -/
def IsSetOrder (g : List String → List String) : Prop :=
  ∀ l : List String, (g l).Nodup ∧ ∀ x, x ∈ g l ↔ x ∈ l

/-- One admissible `list(set(links))` order: deduplicate, keeping (per
Mathlib's `dedup`) the last occurrence of each string. -/
def pySetA (l : List String) : List String := l.dedup

/-- Another admissible `list(set(links))` order: the reverse of the input,
deduplicated. -/
def pySetB (l : List String) : List String := l.reverse.dedup

/-- crawler.py lines 100-107, `_discover_links`, with the set-iteration
order made explicit. -/
def discoverLinks (site : Site) (setOrder : List String → List String)
    (startUrl : String) (visited : List String) (hrefs : List String) :
    List String :=
  setOrder (discoverCandidates site startUrl visited hrefs)

/-! ### The page session (crawler.py `_crawl_page`) -/

/-- The error string appended at crawler.py line 115:
`f"Failed to load {url}: {e}"`. -/
def failMsg (url cause : String) : String :=
  "Failed to load " ++ url ++ ": " ++ cause

/-- The error string appended at crawler.py line 132:
`f"Detector {det.name} failed on {url}: {e}"`. -/
def detectorFailMsg (name url e : String) : String :=
  "Detector " ++ name ++ " failed on " ++ url ++ ": " ++ e

/-- The synthetic Bug built at crawler.py lines 119-125 when
`resp.status >= 400`. -/
def httpBug (url : String) (status : Nat) : Bug :=
  { url := url
    category := "http"
    severity := Severity.high
    title := "HTTP " ++ toString status
    description := "Page returned status " ++ toString status }

/-- The `for det in detectors` loop of crawler.py lines 127-132, as a fold
over the pair (result.bugs, result.errors): on success the returned bugs
extend the bug list; on an exception one tagged message is appended to the
error list and the loop continues with the next detector. -/
def detectLoop (url : String) (dets : List Detector)
    (acc : List Bug × List String) : List Bug × List String :=
  dets.foldl (fun acc d =>
    match d.detect url with
    | Except.ok bs => (acc.1 ++ bs, acc.2)
    | Except.error e => (acc.1, acc.2 ++ [detectorFailMsg d.name url e])) acc

/-- What `_crawl_page` may write: it appends to `self.result.bugs`,
`self.result.errors` and `self._queue`, and only reads `self._visited`. -/
structure PageEffect where
  queue : List String
  bugs : List Bug
  errors : List String
deriving DecidableEq, Repr

/-- crawler.py lines 109-140, `_crawl_page` (for stateless detectors):
navigate (on failure append one error and return, lines 111-116); if a
response object exists and its status is ≥ 400 append the synthetic HTTP
bug (lines 118-125); run every detector (lines 127-132); discover links
and offer each to the queue (lines 134-140), where a raised discovery is
swallowed (`hrefs = none`). -/
def crawlPage (site : Site) (setOrder : List String → List String)
    (dets : List Detector) (startUrl url : String) (visited : List String)
    (e : PageEffect) : PageEffect :=
  match site.nav url with
  | NavResult.failed cause => { e with errors := e.errors ++ [failMsg url cause] }
  | NavResult.loaded status =>
    let bugs1 :=
      match status with
      | some s => if s ≥ 400 then e.bugs ++ [httpBug url s] else e.bugs
      | none => e.bugs
    let p := detectLoop url dets (bugs1, e.errors)
    let queue1 :=
      match site.hrefs url with
      | none => e.queue
      | some hs =>
        (offer { visited := visited, queue := e.queue }
          (discoverLinks site setOrder startUrl visited hs)).queue
    { queue := queue1, bugs := p.1, errors := p.2 }

/-! ### The run loop (crawler.py `run`) -/

/-- The mutable state of one run: `self._visited`, `self._queue`,
`self.result.bugs`, `self.result.errors`. -/
structure CrawlState where
  visited : List String
  queue : List String
  bugs : List Bug
  errors : List String
deriving DecidableEq, Repr

/-- crawler.py lines 160-165: while the queue is non-empty and
`len(self._visited) < self.max_pages`, pop the head; skip it when already
visited; otherwise mark it visited and run `_crawl_page` on it. -/
def runLoop (site : Site) (setOrder : List String → List String)
    (dets : List Detector) (startUrl : String) (maxPages : Nat)
    (st : CrawlState) : CrawlState :=
  match hq : st.queue with
  | [] => st
  | u :: rest =>
    if _hv : st.visited.length < maxPages then
      if u ∈ st.visited then
        runLoop site setOrder dets startUrl maxPages
          { visited := st.visited, queue := rest, bugs := st.bugs, errors := st.errors }
      else
        let eff := crawlPage site setOrder dets startUrl u (u :: st.visited)
          { queue := rest, bugs := st.bugs, errors := st.errors }
        runLoop site setOrder dets startUrl maxPages
          { visited := u :: st.visited, queue := eff.queue, bugs := eff.bugs, errors := eff.errors }
    else st
termination_by (maxPages - st.visited.length, st.queue.length)
decreasing_by
  · apply Prod.Lex.right
    rw [hq]
    simp only [List.length_cons]
    omega
  · apply Prod.Lex.left
    simp only [List.length_cons]
    omega

/-- The final crawl state of `run` (crawler.py lines 142-172): both frontier
collections start empty (lines 93-94), the normalized seed is enqueued
(line 158) and the loop runs to exhaustion.  Browser management, printing
and the wall-clock timestamps are not modelled; the already-instantiated,
already-attached detector list (lines 151-156) is the `dets` parameter. -/
def runState (site : Site) (setOrder : List String → List String)
    (dets : List Detector) (startUrl : String) (maxPages : Nat) : CrawlState :=
  runLoop site setOrder dets startUrl maxPages
    { visited := [], queue := [rstripSlash startUrl], bugs := [], errors := [] }

/-- The CrawlResult returned by `run`: `pages_visited = len(self._visited)`
(crawler.py line 169). -/
def runCrawl (site : Site) (setOrder : List String → List String)
    (dets : List Detector) (startUrl : String) (maxPages : Nat) : CrawlResult :=
  let stF := runState site setOrder dets startUrl maxPages
  { start_url := startUrl
    pages_visited := stF.visited.length
    bugs := stF.bugs
    errors := stF.errors }

/-! ### The crawl with the stateful console detector (claim C8)

`_crawl_page` again, this time with the registered detector list consisting
of the (stateful) `ConsoleErrorDetector` instance.  The handlers attached at
crawler.py lines 154-155 stay registered for the whole run, so the events of
each page visit (modelled as all arriving during the `goto` / settle of
lines 112-113) are appended to the instance buffer whether or not the
navigation succeeds; `detect` runs — and clears the buffer — only when
navigation completed (lines 127-132 are unreachable after the early return
at line 116). -/

/-- What a console-detector page visit may change: the pending queue, the
result lists, and the detector instance's private buffer. -/
structure PageEffectC where
  queue : List String
  bugs : List Bug
  errors : List String
  buf : List ConsoleEntry
deriving DecidableEq, Repr

/-- crawler.py lines 109-140 with `detectors = [ConsoleErrorDetector()]`. -/
def crawlPageC (site : Site) (setOrder : List String → List String)
    (startUrl url : String) (visited : List String) (e : PageEffectC) :
    PageEffectC :=
  let buf1 := consumeEvents e.buf (site.events url)
  match site.nav url with
  | NavResult.failed cause =>
    { e with errors := e.errors ++ [failMsg url cause], buf := buf1 }
  | NavResult.loaded status =>
    let bugs1 :=
      match status with
      | some s => if s ≥ 400 then e.bugs ++ [httpBug url s] else e.bugs
      | none => e.bugs
    let d := consoleDetect url buf1
    let queue1 :=
      match site.hrefs url with
      | none => e.queue
      | some hs =>
        (offer { visited := visited, queue := e.queue }
          (discoverLinks site setOrder startUrl visited hs)).queue
    { queue := queue1, bugs := bugs1 ++ d.1, errors := e.errors, buf := d.2 }

/-- Run state with the console detector's buffer alongside. -/
structure CrawlStateC where
  visited : List String
  queue : List String
  bugs : List Bug
  errors : List String
  buf : List ConsoleEntry
deriving DecidableEq, Repr

/-- crawler.py lines 160-165, with the console detector registered. -/
def runLoopC (site : Site) (setOrder : List String → List String)
    (startUrl : String) (maxPages : Nat) (st : CrawlStateC) : CrawlStateC :=
  match hq : st.queue with
  | [] => st
  | u :: rest =>
    if _hv : st.visited.length < maxPages then
      if u ∈ st.visited then
        runLoopC site setOrder startUrl maxPages
          { st with queue := rest }
      else
        let eff := crawlPageC site setOrder startUrl u (u :: st.visited)
          { queue := rest, bugs := st.bugs, errors := st.errors, buf := st.buf }
        runLoopC site setOrder startUrl maxPages
          { visited := u :: st.visited, queue := eff.queue, bugs := eff.bugs,
            errors := eff.errors, buf := eff.buf }
    else st
termination_by (maxPages - st.visited.length, st.queue.length)
decreasing_by
  · apply Prod.Lex.right
    rw [hq]
    simp only [List.length_cons]
    omega
  · apply Prod.Lex.left
    simp only [List.length_cons]
    omega

/-- The final state of a run with the console detector: both frontier
collections and the result lists start empty, and so does the instance
buffer created in `__init__` (console_errors.py line 14). -/
def runStateC (site : Site) (setOrder : List String → List String)
    (startUrl : String) (maxPages : Nat) : CrawlStateC :=
  runLoopC site setOrder startUrl maxPages
    { visited := [], queue := [rstripSlash startUrl], bugs := [], errors := [], buf := [] }

/-! ### The JSON report summary (src/reporter.py, claim C9) -/

/-- One `d[k] = d.get(k, 0) + 1` update of a Python counting dict, on an
insertion-ordered association list (reporter.py lines 66-71). -/
def bumpCount (m : List (String × Nat)) (k : String) : List (String × Nat) :=
  match m with
  | [] => [(k, 1)]
  | (k', v) :: rest => if k' = k then (k', v + 1) :: rest else (k', v) :: bumpCount rest k

/-- The `summary` object of the JSON report. -/
structure Summary where
  total_bugs : Nat
  by_severity : List (String × Nat)
  by_category : List (String × Nat)
deriving DecidableEq, Repr

/-- reporter.py lines 56-71: `total_bugs = len(result.bugs)`, and the two
counting dicts filled by the `for bug in result.bugs` loop, keyed by
`bug.severity.value` and `bug.category`.  (The single source loop fills
both dicts; the two folds are that same loop, one dict at a time.) -/
def jsonSummary (r : CrawlResult) : Summary :=
  { total_bugs := r.bugs.length
    by_severity := r.bugs.foldl (fun m b => bumpCount m b.severity.val) []
    by_category := r.bugs.foldl (fun m b => bumpCount m b.category) [] }

/-- `sum(d.values())` for a counting dict. -/
def sumCounts (m : List (String × Nat)) : Nat :=
  (m.map Prod.snd).sum

/-! ### Derived descriptions of the page session's appends -/

/-- The bugs which the detector loop of crawler.py lines 127-132 appends on a
page: those returned by the succeeding detectors, in registration order. -/
def detectorBugsList (url : String) (dets : List Detector) : List Bug :=
  dets.flatMap (fun d =>
    match d.detect url with
    | Except.ok bs => bs
    | Except.error _ => [])

/-- The operational errors that same loop appends: exactly one entry, tagged
with the detector's name and the page URL, per failing detector, in
registration order. -/
def detectorErrorsList (url : String) (dets : List Detector) : List String :=
  dets.filterMap (fun d =>
    match d.detect url with
    | Except.ok _ => none
    | Except.error e => some (detectorFailMsg d.name url e))

/-- The synthetic finding of the status check at crawler.py lines 118-125,
as a list: one HTTP bug when a response object exists and its status is
≥ 400, otherwise nothing. -/
def statusBugs (url : String) (status : Option Nat) : List Bug :=
  match status with
  | some s => if s ≥ 400 then [httpBug url s] else []
  | none => []

/-- The invariant of the frontier scheduler state: the visited set and the
pending queue are disjoint, and the queue holds no duplicates. -/
def FrontierInv (f : Frontier) : Prop :=
  (∀ u ∈ f.visited, u ∉ f.queue) ∧ f.queue.Nodup

/-! ### Concrete fixtures for witnesses and counterexamples

All URLs live on the single host `a.com`, so the urlparse oracle is the
constant function. -/

/-- A detector that succeeds on every page with one informational finding. -/
def probeDetector : Detector :=
  { name := "probe"
    detect := fun u => Except.ok
      [{ url := u, category := "probe", severity := Severity.info,
         title := "seen", description := u }] }

/-- A detector that raises on every call. -/
def throwingDetector : Detector :=
  { name := "always_throws", detect := fun _ => Except.error "exploded" }

/-- A second succeeding detector, registered after the throwing one in the
C2 witness. -/
def tailDetector : Detector :=
  { name := "tail"
    detect := fun u => Except.ok
      [{ url := u, category := "layout", severity := Severity.low,
         title := "after", description := "later finding" }] }

/-- A three-page site: the root links to `/f` and `/g`; `/f` fails to load
(and one uncaught page error fires while it is being visited); `/g` loads
fine and is silent. -/
def siteW : Site :=
  { netloc := fun _ => "a.com"
    nav := fun u =>
      if u = "http://a.com/f" then NavResult.failed "timeout"
      else NavResult.loaded (some 200)
    hrefs := fun u =>
      if u = "http://a.com" then some ["http://a.com/f", "http://a.com/g"]
      else some []
    events := fun u =>
      if u = "http://a.com/f" then [PageEvent.pageerror "boom"] else [] }

/-- A site whose page `http://a.com/p#frag` carries one link to
`http://a.com/p`. -/
def siteFrag : Site :=
  { netloc := fun _ => "a.com"
    nav := fun _ => NavResult.loaded (some 200)
    hrefs := fun u =>
      if u = "http://a.com/p#frag" then some ["http://a.com/p"] else some []
    events := fun _ => [] }

/-- A single-page site whose every navigation returns HTTP 404. -/
def site404 : Site :=
  { netloc := fun _ => "a.com"
    nav := fun _ => NavResult.loaded (some 404)
    hrefs := fun _ => some []
    events := fun _ => [] }

/-- A single-page site whose navigation completes without a response
object (`page.goto` returned `None`). -/
def siteNoResp : Site :=
  { netloc := fun _ => "a.com"
    nav := fun _ => NavResult.loaded none
    hrefs := fun _ => some []
    events := fun _ => [] }

/-- A site on which every navigation raises. -/
def siteDown : Site :=
  { netloc := fun _ => "a.com"
    nav := fun _ => NavResult.failed "net::ERR_NAME_NOT_RESOLVED"
    hrefs := fun _ => some []
    events := fun _ => [] }

/-! ## Theorems -/

/-! ### Unfolding lemmas for the run loop -/

theorem runLoop_nil (site : Site) (setOrder : List String → List String)
    (dets : List Detector) (startUrl : String) (maxPages : Nat)
    (st : CrawlState) (h : st.queue = []) :
    runLoop site setOrder dets startUrl maxPages st = st := by
  unfold runLoop
  split
  · rfl
  next u rest heq => rw [h] at heq; cases heq

theorem runLoop_stop (site : Site) (setOrder : List String → List String)
    (dets : List Detector) (startUrl : String) (maxPages : Nat)
    (st : CrawlState) (h : maxPages ≤ st.visited.length) :
    runLoop site setOrder dets startUrl maxPages st = st := by
  unfold runLoop
  split
  · rfl
  next u rest heq =>
    rw [dif_neg]
    omega

theorem runLoop_skip (site : Site) (setOrder : List String → List String)
    (dets : List Detector) (startUrl : String) (maxPages : Nat)
    (st : CrawlState) (u : String) (rest : List String)
    (hq : st.queue = u :: rest) (hv : st.visited.length < maxPages)
    (hu : u ∈ st.visited) :
    runLoop site setOrder dets startUrl maxPages st =
      runLoop site setOrder dets startUrl maxPages
        { visited := st.visited, queue := rest, bugs := st.bugs, errors := st.errors } := by
  conv_lhs => rw [runLoop]
  split
  · next heq => rw [hq] at heq; cases heq
  next u' rest' heq =>
    rw [hq] at heq
    cases heq
    rw [dif_pos hv, if_pos hu]

theorem runLoop_visit (site : Site) (setOrder : List String → List String)
    (dets : List Detector) (startUrl : String) (maxPages : Nat)
    (st : CrawlState) (u : String) (rest : List String)
    (hq : st.queue = u :: rest) (hv : st.visited.length < maxPages)
    (hu : u ∉ st.visited) :
    runLoop site setOrder dets startUrl maxPages st =
      runLoop site setOrder dets startUrl maxPages
        { visited := u :: st.visited
          queue := (crawlPage site setOrder dets startUrl u (u :: st.visited)
            { queue := rest, bugs := st.bugs, errors := st.errors }).queue
          bugs := (crawlPage site setOrder dets startUrl u (u :: st.visited)
            { queue := rest, bugs := st.bugs, errors := st.errors }).bugs
          errors := (crawlPage site setOrder dets startUrl u (u :: st.visited)
            { queue := rest, bugs := st.bugs, errors := st.errors }).errors } := by
  conv_lhs => rw [runLoop]
  split
  · next heq => rw [hq] at heq; cases heq
  next u' rest' heq =>
    rw [hq] at heq
    cases heq
    rw [dif_pos hv, if_neg hu]

/-! ### The detector loop -/

theorem detectLoop_eq (url : String) (dets : List Detector) :
    ∀ acc : List Bug × List String,
      detectLoop url dets acc =
        (acc.1 ++ detectorBugsList url dets, acc.2 ++ detectorErrorsList url dets) := by
  induction dets with
  | nil =>
    intro acc
    simp [detectLoop, detectorBugsList, detectorErrorsList]
  | cons d ds ih =>
    intro acc
    have h1 : detectLoop url (d :: ds) acc =
        detectLoop url ds
          (match d.detect url with
           | Except.ok bs => (acc.1 ++ bs, acc.2)
           | Except.error e => (acc.1, acc.2 ++ [detectorFailMsg d.name url e])) := rfl
    rw [h1]
    cases hd : d.detect url with
    | ok bs =>
      rw [ih]
      simp [detectorBugsList, detectorErrorsList, hd]
    | error msg =>
      rw [ih]
      simp [detectorBugsList, detectorErrorsList, hd]

/-- The page session on a completed navigation: result appends are the status
finding followed by the detector loop's bugs, and the detector loop's
errors. -/
theorem crawlPage_loaded (site : Site) (setOrder : List String → List String)
    (dets : List Detector) (startUrl url : String) (visited : List String)
    (e : PageEffect) (status : Option Nat)
    (hnav : site.nav url = NavResult.loaded status) :
    (crawlPage site setOrder dets startUrl url visited e).bugs =
      e.bugs ++ statusBugs url status ++ detectorBugsList url dets ∧
    (crawlPage site setOrder dets startUrl url visited e).errors =
      e.errors ++ detectorErrorsList url dets := by
  unfold crawlPage
  rw [hnav]
  cases status with
  | none => simp [statusBugs, detectLoop_eq]
  | some s =>
    by_cases h4 : s ≥ 400 <;>
      simp [statusBugs, h4, detectLoop_eq]

/-! ### Claims C2, C5, C6, C10: the page session -/

/-- C2: on a page whose navigation completed, a detector whose detect call
raises contributes exactly one operational error entry, tagged with the
detector's name and the page URL and placed in registration order; every
other registered detector on the page still runs and its returned bugs all
appear in the result, so the crawl continues past the failure. -/
theorem detector_failure_isolation (site : Site) (setOrder : List String → List String)
    (pre post : List Detector) (d : Detector) (startUrl url : String)
    (visited : List String) (e : PageEffect) (status : Option Nat) (msg : String)
    (hnav : site.nav url = NavResult.loaded status)
    (hd : d.detect url = Except.error msg) :
    (crawlPage site setOrder (pre ++ d :: post) startUrl url visited e).errors =
      e.errors ++ detectorErrorsList url pre ++ [detectorFailMsg d.name url msg] ++
        detectorErrorsList url post ∧
    (crawlPage site setOrder (pre ++ d :: post) startUrl url visited e).bugs =
      e.bugs ++ statusBugs url status ++ detectorBugsList url pre ++
        detectorBugsList url post := by
  have h := crawlPage_loaded site setOrder (pre ++ d :: post) startUrl url visited e status hnav
  constructor
  · rw [h.2]
    simp [detectorErrorsList, List.filterMap_append, List.filterMap_cons, hd]
  · rw [h.1]
    simp [detectorBugsList, List.flatMap_append, List.flatMap_cons, hd]

/-- Witness for C2: on a page flanked by two healthy detectors, the throwing
detector leaves exactly one tagged error, and both healthy detectors' bugs
appear. -/
theorem detector_failure_isolation_witness :
    (crawlPage siteW pySetA [probeDetector, throwingDetector, tailDetector]
        "http://a.com" "http://a.com" ["http://a.com"] ⟨[], [], []⟩).errors =
      ["Detector always_throws failed on http://a.com: exploded"] ∧
    (crawlPage siteW pySetA [probeDetector, throwingDetector, tailDetector]
        "http://a.com" "http://a.com" ["http://a.com"] ⟨[], [], []⟩).bugs =
      [{ url := "http://a.com", category := "probe", severity := Severity.info,
         title := "seen", description := "http://a.com" },
       { url := "http://a.com", category := "layout", severity := Severity.low,
         title := "after", description := "later finding" }] := by
  have h := detector_failure_isolation siteW pySetA [probeDetector] [tailDetector]
    throwingDetector "http://a.com" "http://a.com" ["http://a.com"] ⟨[], [], []⟩
    (some 200) "exploded" rfl rfl
  exact ⟨h.1.trans (by decide), h.2.trans (by decide)⟩

/-- C5: when navigation raises, the page session appends exactly one error
of the form "Failed to load <url>: <cause>", changes nothing else (so the
page contributes no detector findings and no queue entries), and the run
loop carries on with the rest of the queue. -/
theorem navigation_failure_isolated (site : Site) (setOrder : List String → List String)
    (dets : List Detector) (startUrl url cause : String) (maxPages : Nat)
    (hnav : site.nav url = NavResult.failed cause) :
    (∀ (visited : List String) (e : PageEffect),
        crawlPage site setOrder dets startUrl url visited e =
          { e with errors := e.errors ++ [failMsg url cause] }) ∧
    (∀ (st : CrawlState) (rest : List String), st.queue = url :: rest →
        url ∉ st.visited → st.visited.length < maxPages →
        runLoop site setOrder dets startUrl maxPages st =
          runLoop site setOrder dets startUrl maxPages
            { visited := url :: st.visited, queue := rest, bugs := st.bugs,
              errors := st.errors ++ [failMsg url cause] }) := by
  have h1 : ∀ (visited : List String) (e : PageEffect),
      crawlPage site setOrder dets startUrl url visited e =
        { e with errors := e.errors ++ [failMsg url cause] } := by
    intro visited e
    unfold crawlPage
    rw [hnav]
  refine ⟨h1, ?_⟩
  intro st rest hq hu hv
  rw [runLoop_visit site setOrder dets startUrl maxPages st url rest hq hv hu, h1]

/-- Witness for C5: the unreachable single-page site records one failure
string and nothing else, and the loop proceeds from the post-failure
state. -/
theorem navigation_failure_isolated_witness :
    crawlPage siteDown pySetA [probeDetector] "http://a.com" "http://a.com" [] ⟨[], [], []⟩ =
      { queue := [], bugs := [],
        errors := ["Failed to load http://a.com: net::ERR_NAME_NOT_RESOLVED"] } ∧
    runLoop siteDown pySetA [probeDetector] "http://a.com" 5
        ⟨[], ["http://a.com"], [], []⟩ =
      runLoop siteDown pySetA [probeDetector] "http://a.com" 5
        ⟨["http://a.com"], [], [],
         ["Failed to load http://a.com: net::ERR_NAME_NOT_RESOLVED"]⟩ := by
  have h := navigation_failure_isolated siteDown pySetA [probeDetector]
    "http://a.com" "http://a.com" "net::ERR_NAME_NOT_RESOLVED" 5 rfl
  exact ⟨(h.1 [] ⟨[], [], []⟩).trans (by decide),
         h.2 ⟨[], ["http://a.com"], [], []⟩ [] rfl (by simp) (by decide)⟩

/-- C6: a navigation response with status ≥ 400 yields exactly one synthetic
HTTP bug — category "http", severity high, title "HTTP <status>" — appended
before every bug the detectors produce on that page. -/
theorem http_status_bug_emitted (site : Site) (setOrder : List String → List String)
    (dets : List Detector) (startUrl url : String) (visited : List String)
    (e : PageEffect) (s : Nat)
    (hnav : site.nav url = NavResult.loaded (some s)) (hs : 400 ≤ s) :
    (crawlPage site setOrder dets startUrl url visited e).bugs =
      e.bugs ++ [httpBug url s] ++ detectorBugsList url dets ∧
    (httpBug url s).category = "http" ∧
    (httpBug url s).severity = Severity.high ∧
    (httpBug url s).title = "HTTP " ++ toString s := by
  have h := crawlPage_loaded site setOrder dets startUrl url visited e (some s) hnav
  refine ⟨?_, rfl, rfl, rfl⟩
  rw [h.1]
  simp [statusBugs, hs]

/-- Witness for C6: a 404 seed page yields the synthetic "HTTP 404" bug
first, then the detector's finding. -/
theorem http_status_bug_emitted_witness :
    (crawlPage site404 pySetA [probeDetector] "http://a.com" "http://a.com"
        ["http://a.com"] ⟨[], [], []⟩).bugs =
      [{ url := "http://a.com", category := "http", severity := Severity.high,
         title := "HTTP 404", description := "Page returned status 404" },
       { url := "http://a.com", category := "probe", severity := Severity.info,
         title := "seen", description := "http://a.com" }] := by
  have h := http_status_bug_emitted site404 pySetA [probeDetector]
    "http://a.com" "http://a.com" ["http://a.com"] ⟨[], [], []⟩ 404 rfl (by omega)
  exact h.1.trans (by decide)

/-- C10: when navigation completes but yields no response object, the guarded
status check emits nothing (and, being a total match on an optional value,
never reads a status from the absent response), while every registered
detector still runs on the page. -/
theorem absent_response_guarded (site : Site) (setOrder : List String → List String)
    (dets : List Detector) (startUrl url : String) (visited : List String)
    (e : PageEffect)
    (hnav : site.nav url = NavResult.loaded none) :
    (crawlPage site setOrder dets startUrl url visited e).bugs =
      e.bugs ++ detectorBugsList url dets ∧
    (crawlPage site setOrder dets startUrl url visited e).errors =
      e.errors ++ detectorErrorsList url dets ∧
    statusBugs url none = [] := by
  have h := crawlPage_loaded site setOrder dets startUrl url visited e none hnav
  refine ⟨?_, h.2, rfl⟩
  rw [h.1]
  simp [statusBugs]

/-- Witness for C10: a page with an absent response object gets no HTTP bug,
and both registered detectors still run (one finding, one tagged error). -/
theorem absent_response_guarded_witness :
    (crawlPage siteNoResp pySetA [probeDetector, throwingDetector]
        "http://a.com" "http://a.com" ["http://a.com"] ⟨[], [], []⟩).bugs =
      [{ url := "http://a.com", category := "probe", severity := Severity.info,
         title := "seen", description := "http://a.com" }] ∧
    (crawlPage siteNoResp pySetA [probeDetector, throwingDetector]
        "http://a.com" "http://a.com" ["http://a.com"] ⟨[], [], []⟩).errors =
      ["Detector always_throws failed on http://a.com: exploded"] := by
  have h := absent_response_guarded siteNoResp pySetA [probeDetector, throwingDetector]
    "http://a.com" "http://a.com" ["http://a.com"] ⟨[], [], []⟩ rfl
  exact ⟨h.1.trans (by decide), h.2.1.trans (by decide)⟩

/-! ### Claim C9: the JSON report summary -/

theorem sumCounts_bumpCount (m : List (String × Nat)) (k : String) :
    sumCounts (bumpCount m k) = sumCounts m + 1 := by
  induction m with
  | nil => simp [bumpCount, sumCounts]
  | cons kv rest ih =>
    obtain ⟨k', v⟩ := kv
    by_cases h : k' = k <;> simp [bumpCount, h, sumCounts] at * <;> omega

theorem sumCounts_countFold (key : Bug → String) (l : List Bug) :
    ∀ m : List (String × Nat),
      sumCounts (l.foldl (fun m b => bumpCount m (key b)) m) = sumCounts m + l.length := by
  induction l with
  | nil => intro m; simp
  | cons b bs ih =>
    intro m
    rw [List.foldl_cons, ih, sumCounts_bumpCount]
    simp [Nat.add_assoc, Nat.add_comm]

/-- C9: for a result with N bugs, the generated summary reports
total_bugs = N, and each of the two grouping dicts counts every bug exactly
once, so its values sum to N. -/
theorem json_summary_counts (r : CrawlResult) :
    (jsonSummary r).total_bugs = r.bugs.length ∧
    sumCounts (jsonSummary r).by_severity = r.bugs.length ∧
    sumCounts (jsonSummary r).by_category = r.bugs.length := by
  refine ⟨rfl, ?_, ?_⟩
  · have h := sumCounts_countFold (fun b => b.severity.val) r.bugs []
    simpa [jsonSummary, sumCounts] using h
  · have h := sumCounts_countFold (fun b => b.category) r.bugs []
    simpa [jsonSummary, sumCounts] using h

/-! ### Claim C1: the frontier invariant -/

theorem offerOne_visited (f : Frontier) (l : String) :
    (offerOne f l).visited = f.visited := by
  unfold offerOne
  split <;> rfl

theorem offer_visited (f : Frontier) (ls : List String) :
    (offer f ls).visited = f.visited := by
  induction ls generalizing f with
  | nil => rfl
  | cons l ls ih =>
    rw [show offer f (l :: ls) = offer (offerOne f l) ls from rfl, ih, offerOne_visited]

theorem mem_offerOne_queue {x : String} (f : Frontier) (l : String)
    (h : x ∈ (offerOne f l).queue) : x ∈ f.queue ∨ x = l := by
  unfold offerOne at h
  split at h
  · rw [List.mem_append, List.mem_singleton] at h
    exact h
  · exact Or.inl h

theorem mem_offer_queue {x : String} (ls : List String) :
    ∀ f : Frontier, x ∈ (offer f ls).queue → x ∈ f.queue ∨ x ∈ ls := by
  induction ls with
  | nil => intro f h; exact Or.inl h
  | cons l ls ih =>
    intro f h
    rw [show offer f (l :: ls) = offer (offerOne f l) ls from rfl] at h
    rcases ih (offerOne f l) h with h' | h'
    · rcases mem_offerOne_queue f l h' with h'' | h''
      · exact Or.inl h''
      · exact Or.inr (by simp [h''])
    · exact Or.inr (by simp [h'])

theorem offerOne_inv (f : Frontier) (l : String) (h : FrontierInv f) :
    FrontierInv (offerOne f l) := by
  unfold offerOne
  split
  next hc =>
    constructor
    · intro u hu
      rw [List.mem_append, List.mem_singleton]
      rintro (h1 | h2)
      · exact h.1 u hu h1
      · exact hc.1 (h2 ▸ hu)
    · rw [List.nodup_append]
      refine ⟨h.2, List.nodup_singleton l, ?_⟩
      intro a ha hal
      rw [List.mem_singleton] at hal
      exact hc.2 (hal ▸ ha)
  next => exact h

theorem offer_inv (ls : List String) :
    ∀ f : Frontier, FrontierInv f → FrontierInv (offer f ls) := by
  induction ls with
  | nil => intro f h; exact h
  | cons l ls ih =>
    intro f h
    rw [show offer f (l :: ls) = offer (offerOne f l) ls from rfl]
    exact ih (offerOne f l) (offerOne_inv f l h)

/-- The accumulated guarantees of any sequence of scheduler operations run on
an invariant-satisfying frontier: the invariant is preserved, the visited
set after the sequence is exactly (the reverse of) the trace of URLs handed
out for processing on top of the initial visited set, the trace has no
duplicates, and nothing already visited is ever handed out again. -/
theorem applyOps_spec (ops : List SchedOp) :
    ∀ f : Frontier, FrontierInv f →
      FrontierInv (applyOps f ops).1 ∧
      (applyOps f ops).1.visited = (applyOps f ops).2.reverse ++ f.visited ∧
      (applyOps f ops).2.Nodup ∧
      (∀ u ∈ (applyOps f ops).2, u ∉ f.visited) := by
  induction ops with
  | nil =>
    intro f h
    refine ⟨h, by simp [applyOps], by simp [applyOps], by simp [applyOps]⟩
  | cons op ops ih =>
    intro f h
    cases op with
    | offer ls =>
      have h' := offer_inv ls f h
      have hv := offer_visited f ls
      have H := ih (offer f ls) h'
      rw [show applyOps f (SchedOp.offer ls :: ops) = applyOps (offer f ls) ops from rfl]
      refine ⟨H.1, ?_, H.2.2.1, ?_⟩
      · rw [H.2.1, hv]
      · intro u hu
        have := H.2.2.2 u hu
        rwa [hv] at this
    | dequeue =>
      cases hq : f.queue with
      | nil =>
        have hd : dequeueStep f = (none, f) := by simp [dequeueStep, hq]
        rw [show applyOps f (SchedOp.dequeue :: ops) =
          (match dequeueStep f with
           | (none, f') => applyOps f' ops
           | (some u, f') =>
             let r := applyOps f' ops
             (r.1, u :: r.2)) from rfl, hd]
        exact ih f h
      | cons u rest =>
        have hnodup : (u :: rest).Nodup := hq ▸ h.2
        by_cases hu : u ∈ f.visited
        · have hd : dequeueStep f = (none, ⟨f.visited, rest⟩) := by
            simp [dequeueStep, hq, hu]
          have h' : FrontierInv ⟨f.visited, rest⟩ := by
            constructor
            · intro v hv
              have := h.1 v hv
              rw [hq, List.mem_cons] at this
              push_neg at this
              exact this.2
            · exact hnodup.of_cons
          rw [show applyOps f (SchedOp.dequeue :: ops) =
            (match dequeueStep f with
             | (none, f') => applyOps f' ops
             | (some u, f') =>
               let r := applyOps f' ops
               (r.1, u :: r.2)) from rfl, hd]
          exact ih ⟨f.visited, rest⟩ h'
        · have hd : dequeueStep f = (some u, ⟨u :: f.visited, rest⟩) := by
            simp [dequeueStep, hq, hu]
          have h' : FrontierInv ⟨u :: f.visited, rest⟩ := by
            constructor
            · intro v hv
              rw [List.mem_cons] at hv
              rcases hv with hv | hv
              · subst hv
                exact (List.nodup_cons.mp hnodup).1
              · have := h.1 v hv
                rw [hq, List.mem_cons] at this
                push_neg at this
                exact this.2
            · exact hnodup.of_cons
          have H := ih ⟨u :: f.visited, rest⟩ h'
          rw [show applyOps f (SchedOp.dequeue :: ops) =
            (match dequeueStep f with
             | (none, f') => applyOps f' ops
             | (some u, f') =>
               let r := applyOps f' ops
               (r.1, u :: r.2)) from rfl, hd]
          refine ⟨H.1, ?_, ?_, ?_⟩
          · rw [H.2.1]
            simp
          · rw [List.nodup_cons]
            refine ⟨?_, H.2.2.1⟩
            intro hmem
            have := H.2.2.2 u hmem
            simp at this
          · intro x hx
            rw [List.mem_cons] at hx
            rcases hx with hx | hx
            · exact hx ▸ hu
            · have := H.2.2.2 x hx
              rw [List.mem_cons] at this
              push_neg at this
              exact this.2

/-- C1: starting from the seed enqueue, after any sequence of offers and
dequeue steps the visited set and the pending queue are disjoint, the
visited set is exactly the set of URLs dequeued for processing so far (a URL
enters visited at the moment it is dequeued, not when enqueued), and the
processing trace has no duplicates: no URL is handed to the page session
twice, however many times it is offered.  (Every prefix of a sequence is
itself a sequence, so this covers the state after every operation.) -/
theorem frontier_invariant (startUrl : String) (ops : List SchedOp) :
    (∀ u ∈ (applyOps (seedFrontier startUrl) ops).1.visited,
        u ∉ (applyOps (seedFrontier startUrl) ops).1.queue) ∧
    (applyOps (seedFrontier startUrl) ops).1.visited =
      (applyOps (seedFrontier startUrl) ops).2.reverse ∧
    (applyOps (seedFrontier startUrl) ops).2.Nodup := by
  have h0 : FrontierInv (seedFrontier startUrl) := by
    constructor
    · intro u hu
      simp [seedFrontier] at hu
    · simp [seedFrontier]
  have H := applyOps_spec ops (seedFrontier startUrl) h0
  refine ⟨H.1.1, ?_, H.2.2.1⟩
  have := H.2.1
  simpa [seedFrontier] using this

/-! ### Claim C7: the page budget -/

theorem runLoop_visited_le (site : Site) (setOrder : List String → List String)
    (dets : List Detector) (startUrl : String) (maxPages : Nat) :
    ∀ st : CrawlState, st.visited.length ≤ maxPages →
      (runLoop site setOrder dets startUrl maxPages st).visited.length ≤ maxPages := by
  intro st
  induction st using runLoop.induct site setOrder dets startUrl maxPages with
  | case1 x hx =>
    intro h
    rwa [runLoop_nil site setOrder dets startUrl maxPages x hx]
  | case2 x u rest hq hv hu ih =>
    intro h
    rw [runLoop_skip site setOrder dets startUrl maxPages x u rest hq hv hu]
    exact ih h
  | case3 x u rest hq hv hu eff ih =>
    intro _
    rw [runLoop_visit site setOrder dets startUrl maxPages x u rest hq hv hu]
    apply ih
    simpa using hv
  | case4 x u rest hq hv =>
    intro h
    rwa [runLoop_stop site setOrder dets startUrl maxPages x (by omega)]

/-- C7: the number of visited pages never exceeds maxPages; once the visited
set has reached maxPages the loop returns without dequeuing anything (URLs
still queued are simply never dequeued); and with maxPages = 1 exactly the
(slash-stripped) seed URL is visited. -/
theorem page_budget (site : Site) (setOrder : List String → List String)
    (dets : List Detector) (startUrl : String) (maxPages : Nat) :
    (runCrawl site setOrder dets startUrl maxPages).pages_visited ≤ maxPages ∧
    (∀ st : CrawlState, maxPages ≤ st.visited.length →
        runLoop site setOrder dets startUrl maxPages st = st) ∧
    (maxPages = 1 →
        (runState site setOrder dets startUrl maxPages).visited = [rstripSlash startUrl]) := by
  refine ⟨?_, ?_, ?_⟩
  · exact runLoop_visited_le site setOrder dets startUrl maxPages
      { visited := [], queue := [rstripSlash startUrl], bugs := [], errors := [] }
      (by simp)
  · intro st h
    exact runLoop_stop site setOrder dets startUrl maxPages st h
  · intro h1
    subst h1
    rw [runState, runLoop_visit site setOrder dets startUrl 1
      { visited := [], queue := [rstripSlash startUrl], bugs := [], errors := [] }
      (rstripSlash startUrl) [] rfl (by simp) (by simp)]
    rw [runLoop_stop site setOrder dets startUrl 1 _ (by simp)]

/-- Witness for C7: a two-link site crawled with maxPages = 1 visits exactly
the seed; a state already at the budget is returned untouched. -/
theorem page_budget_witness :
    (runCrawl siteW pySetA [probeDetector] "http://a.com/" 1).pages_visited ≤ 1 ∧
    runLoop siteW pySetA [probeDetector] "http://a.com/" 1
        ⟨["http://a.com"], ["http://a.com/f", "http://a.com/g"], [], []⟩ =
      ⟨["http://a.com"], ["http://a.com/f", "http://a.com/g"], [], []⟩ ∧
    (runState siteW pySetA [probeDetector] "http://a.com/" 1).visited = ["http://a.com"] := by
  have h := page_budget siteW pySetA [probeDetector] "http://a.com/" 1
  refine ⟨h.1, h.2.1 ⟨["http://a.com"], ["http://a.com/f", "http://a.com/g"], [], []⟩ (by simp), ?_⟩
  have h2 := h.2.2 rfl
  have e : rstripSlash "http://a.com/" = "http://a.com" := by decide
  rwa [e] at h2

/-! ### Claim C3: URL normalization before storage -/

theorem pySetA_isSetOrder : IsSetOrder pySetA := by
  intro l
  exact ⟨List.nodup_dedup l, fun x => List.mem_dedup⟩

theorem pySetB_isSetOrder : IsSetOrder pySetB := by
  intro l
  refine ⟨List.nodup_dedup _, fun x => ?_⟩
  rw [show pySetB l = l.reverse.dedup from rfl, List.mem_dedup, List.mem_reverse]

theorem stripFragment_eq_self (s : String) (h : ∀ c ∈ s.data, (c != '#') = true) :
    stripFragment s = s := by
  unfold stripFragment
  rw [List.takeWhile_eq_self_iff.mpr h]

theorem mem_of_mem_rstripSlash {c : Char} (s : String)
    (h : c ∈ (rstripSlash s).data) : c ∈ s.data := by
  unfold rstripSlash at h
  rw [show (String.mk ((s.data.reverse.dropWhile (fun c => c == '/')).reverse)).data =
    (s.data.reverse.dropWhile (fun c => c == '/')).reverse from rfl, List.mem_reverse] at h
  have := (List.dropWhile_sublist (fun c => c == '/')).subset h
  rwa [List.mem_reverse] at this

theorem rstripSlash_idem (s : String) : rstripSlash (rstripSlash s) = rstripSlash s := by
  unfold rstripSlash
  congr 1
  show ((s.data.reverse.dropWhile (fun c => c == '/')).reverse.reverse.dropWhile
    (fun c => c == '/')).reverse = (s.data.reverse.dropWhile (fun c => c == '/')).reverse
  rw [List.reverse_reverse, List.dropWhile_idempotent]

/-- Normalization is idempotent: a cleaned link is unchanged by cleaning. -/
theorem cleanLink_idem (h : String) : cleanLink (cleanLink h) = cleanLink h := by
  unfold cleanLink
  have h1 : stripFragment (rstripSlash (stripFragment h)) = rstripSlash (stripFragment h) := by
    apply stripFragment_eq_self
    intro c hc
    have hc2 : c ∈ (stripFragment h).data := mem_of_mem_rstripSlash _ hc
    rw [show (stripFragment h).data = h.data.takeWhile (fun c => c != '#') from rfl] at hc2
    have := List.mem_takeWhile_imp hc2
    exact this
  rw [h1, rstripSlash_idem]

/-- Every URL produced by link discovery is the cleaned form of some href on
the page. -/
theorem mem_discoverLinks {setOrder : List String → List String}
    (hord : IsSetOrder setOrder) (site : Site) (startUrl : String)
    (visited : List String) (hrefs : List String) {x : String}
    (hx : x ∈ discoverLinks site setOrder startUrl visited hrefs) :
    ∃ href ∈ hrefs, x = cleanLink href := by
  have hmem : x ∈ discoverCandidates site startUrl visited hrefs :=
    ((hord _).2 x).mp hx
  unfold discoverCandidates at hmem
  rw [List.mem_filterMap] at hmem
  obtain ⟨href, h1, h2⟩ := hmem
  refine ⟨href, h1, ?_⟩
  dsimp only at h2
  split at h2
  · exact (Option.some_inj.mp h2).symm
  · cases h2

/-- The page session appends to the queue only URLs coming out of link
discovery. -/
theorem mem_crawlPage_queue {x : String} (site : Site)
    (setOrder : List String → List String) (dets : List Detector)
    (startUrl url : String) (visited : List String) (e : PageEffect)
    (hx : x ∈ (crawlPage site setOrder dets startUrl url visited e).queue) :
    x ∈ e.queue ∨ ∃ hs, site.hrefs url = some hs ∧
      x ∈ discoverLinks site setOrder startUrl visited hs := by
  unfold crawlPage at hx
  cases hnav : site.nav url with
  | failed cause =>
    rw [hnav] at hx
    exact Or.inl hx
  | loaded status =>
    rw [hnav] at hx
    dsimp only at hx
    cases hh : site.hrefs url with
    | none =>
      rw [hh] at hx
      exact Or.inl hx
    | some hs =>
      rw [hh] at hx
      rcases mem_offer_queue _ _ hx with h | h
      · exact Or.inl h
      · exact Or.inr ⟨hs, rfl, h⟩

theorem runLoop_normalized (site : Site) (setOrder : List String → List String)
    (dets : List Detector) (startUrl : String) (maxPages : Nat)
    (hord : IsSetOrder setOrder) :
    ∀ st : CrawlState,
      (∀ x ∈ st.queue, x = rstripSlash startUrl ∨ cleanLink x = x) →
      (∀ x ∈ st.visited, x = rstripSlash startUrl ∨ cleanLink x = x) →
      (∀ x ∈ (runLoop site setOrder dets startUrl maxPages st).queue,
          x = rstripSlash startUrl ∨ cleanLink x = x) ∧
      (∀ x ∈ (runLoop site setOrder dets startUrl maxPages st).visited,
          x = rstripSlash startUrl ∨ cleanLink x = x) := by
  intro st
  induction st using runLoop.induct site setOrder dets startUrl maxPages with
  | case1 x hx =>
    intro hq hv
    rw [runLoop_nil site setOrder dets startUrl maxPages x hx]
    exact ⟨hq, hv⟩
  | case2 x u rest hqe hlt hu ih =>
    intro hq hv
    rw [runLoop_skip site setOrder dets startUrl maxPages x u rest hqe hlt hu]
    exact ih (fun y hy => hq y (by rw [hqe]; exact List.mem_cons_of_mem _ hy)) hv
  | case3 x u rest hqe hlt hu eff ih =>
    intro hq hv
    rw [runLoop_visit site setOrder dets startUrl maxPages x u rest hqe hlt hu]
    apply ih
    · intro y hy
      rcases mem_crawlPage_queue site setOrder dets startUrl u (u :: x.visited)
        ⟨rest, x.bugs, x.errors⟩ hy with h | ⟨hs, _, hdl⟩
      · exact hq y (by rw [hqe]; exact List.mem_cons_of_mem _ h)
      · obtain ⟨href, _, heq⟩ := mem_discoverLinks hord site startUrl (u :: x.visited) hs hdl
        exact Or.inr (by rw [heq]; exact cleanLink_idem href)
    · intro y hy
      rcases List.mem_cons.mp hy with h | h
      · subst h
        exact hq y (by rw [hqe]; exact List.mem_cons_self _ _)
      · exact hv y h
  | case4 x u rest hqe hlt =>
    intro hq hv
    rw [runLoop_stop site setOrder dets startUrl maxPages x (by omega)]
    exact ⟨hq, hv⟩

/-- C3 counterexample: the seed URL is enqueued with only its trailing slash
stripped — its fragment survives, so the stored seed differs from its
normalized form, and after one page visit the frontier holds two entries
differing only in a fragment (`.../p#frag` visited, `.../p` queued). -/
theorem seed_fragment_not_stripped :
    (seedFrontier "http://a.com/p#frag").queue ≠ [cleanLink "http://a.com/p#frag"] ∧
    (runState siteFrag pySetA [] "http://a.com/p#frag" 1).visited = ["http://a.com/p#frag"] ∧
    (runState siteFrag pySetA [] "http://a.com/p#frag" 1).queue = ["http://a.com/p"] := by
  have hrun : runState siteFrag pySetA [] "http://a.com/p#frag" 1 =
      ⟨["http://a.com/p#frag"], ["http://a.com/p"], [], []⟩ := by
    simp [runState, runLoop, crawlPage, siteFrag, detectLoop, discoverLinks,
      discoverCandidates, cleanLink, stripFragment, rstripSlash, sameOrigin,
      offer, offerOne, pySetA, List.dedup]
  exact ⟨by decide, by rw [hrun], by rw [hrun]⟩

/-- C3 amended: every frontier entry — queued or visited — of any run state
is either the trailing-slash-stripped seed (whose fragment is kept) or a
fully normalized discovered link (fragment stripped and trailing slashes
stripped, i.e. a fixed point of cleaning); discovered links are always
cleaned before the visited/queue membership tests and before storage. -/
theorem frontier_entries_normalized (site : Site) (setOrder : List String → List String)
    (dets : List Detector) (startUrl : String) (maxPages : Nat)
    (hord : IsSetOrder setOrder) (x : String)
    (hx : x ∈ (runState site setOrder dets startUrl maxPages).queue ∨
          x ∈ (runState site setOrder dets startUrl maxPages).visited) :
    x = rstripSlash startUrl ∨ cleanLink x = x := by
  have H := runLoop_normalized site setOrder dets startUrl maxPages hord
    ⟨[], [rstripSlash startUrl], [], []⟩
    (by intro y hy; rw [List.mem_singleton] at hy; exact Or.inl hy)
    (by intro y hy; cases hy)
  rcases hx with hx | hx
  · exact H.1 x hx
  · exact H.2 x hx

/-- Witness for the amended C3: the queue entry left by crawling the
fragment-bearing seed of siteFrag is a fixed point of cleaning. -/
theorem frontier_entries_normalized_witness :
    "http://a.com/p" = rstripSlash "http://a.com/p#frag" ∨
      cleanLink "http://a.com/p" = "http://a.com/p" := by
  apply frontier_entries_normalized siteFrag pySetA [] "http://a.com/p#frag" 1
    pySetA_isSetOrder
  refine Or.inl ?_
  have hrun : runState siteFrag pySetA [] "http://a.com/p#frag" 1 =
      ⟨["http://a.com/p#frag"], ["http://a.com/p"], [], []⟩ := by
    simp [runState, runLoop, crawlPage, siteFrag, detectLoop, discoverLinks,
      discoverCandidates, cleanLink, stripFragment, rstripSlash, sameOrigin,
      offer, offerOne, pySetA, List.dedup]
  rw [hrun]
  simp

/-! ### Claim C4: determinism of the crawl -/

/-- C4: the crawl is not a function of the site graph and configuration
alone.  `_discover_links` returns `list(set(links))`, and the iteration
order of a Python `set` of strings depends on the per-process hash seed;
both `pySetA` and `pySetB` are admissible behaviours of `list(set(·))`
(each returns the distinct elements of its input), yet on a fixed two-link
site with a fixed configuration they make the crawl visit different pages
and produce different bug and error sequences. -/
theorem crawl_order_hash_dependent :
    IsSetOrder pySetA ∧ IsSetOrder pySetB ∧
    runCrawl siteW pySetA [probeDetector] "http://a.com/" 2 ≠
      runCrawl siteW pySetB [probeDetector] "http://a.com/" 2 := by
  refine ⟨pySetA_isSetOrder, pySetB_isSetOrder, ?_⟩
  have hA : runCrawl siteW pySetA [probeDetector] "http://a.com/" 2 =
      { start_url := "http://a.com/", pages_visited := 2,
        bugs := [{ url := "http://a.com", category := "probe", severity := Severity.info,
                   title := "seen", description := "http://a.com" }],
        errors := ["Failed to load http://a.com/f: timeout"] } := by
    simp [runCrawl, runState, runLoop, crawlPage, siteW, probeDetector, detectLoop,
      discoverLinks, discoverCandidates, cleanLink, stripFragment, rstripSlash,
      sameOrigin, offer, offerOne, pySetA, failMsg, List.dedup]
  have hB : runCrawl siteW pySetB [probeDetector] "http://a.com/" 2 =
      { start_url := "http://a.com/", pages_visited := 2,
        bugs := [{ url := "http://a.com", category := "probe", severity := Severity.info,
                   title := "seen", description := "http://a.com" },
                 { url := "http://a.com/g", category := "probe", severity := Severity.info,
                   title := "seen", description := "http://a.com/g" }],
        errors := [] } := by
    simp [runCrawl, runState, runLoop, crawlPage, siteW, probeDetector, detectLoop,
      discoverLinks, discoverCandidates, cleanLink, stripFragment, rstripSlash,
      sameOrigin, offer, offerOne, pySetB, failMsg, List.dedup]
  rw [hA, hB]
  decide

/-! ### Claim C8: detector instance state is scoped to one page visit -/

/-- C8 counterexample: the only browser event of the whole run fires while
`/f` is being visited (its navigation fails, so detect never runs there and
the buffer is not cleared), yet the resulting javascript bug is attributed
to the later page `/g`. -/
theorem console_buffer_leaks_after_failed_navigation :
    siteW.events "http://a.com/f" = [PageEvent.pageerror "boom"] ∧
    siteW.events "http://a.com" = [] ∧
    siteW.events "http://a.com/g" = [] ∧
    (runStateC siteW pySetA "http://a.com/" 3).bugs =
      [{ url := "http://a.com/g", category := "javascript", severity := Severity.high,
         title := "JS unhandled_exception", description := "boom" }] := by
    refine ⟨by decide, by decide, by decide, ?_⟩
    simp [runStateC, runLoopC, crawlPageC, siteW, consoleDetect, consumeEvents,
      consumeEvent, discoverLinks, discoverCandidates, cleanLink, stripFragment,
      rstripSlash, sameOrigin, offer, offerOne, pySetA, failMsg, List.dedup]

/-- C8 amended: the console detector's private buffer is cleared whenever a
detect call returns, i.e. after every visit whose navigation completed; but
after a visit whose navigation failed — where detect never ran — the buffer
keeps that visit's events, which the next detect call will attribute to a
later page's URL. -/
theorem console_buffer_cleared_on_detect (site : Site)
    (setOrder : List String → List String) (startUrl url : String)
    (visited : List String) (e : PageEffectC) :
    (∀ status, site.nav url = NavResult.loaded status →
        (crawlPageC site setOrder startUrl url visited e).buf = []) ∧
    (∀ cause, site.nav url = NavResult.failed cause →
        (crawlPageC site setOrder startUrl url visited e).buf =
          consumeEvents e.buf (site.events url)) := by
  constructor
  · intro status h
    unfold crawlPageC
    rw [h]
    rfl
  · intro cause h
    unfold crawlPageC
    rw [h]

/-- Witness for the amended C8: on siteW the buffer is empty after visiting
`/g` (navigation completed, detect ran) even when it held an entry before,
and after visiting `/f` (navigation failed) it holds the event fired
there. -/
theorem console_buffer_cleared_on_detect_witness :
    (crawlPageC siteW pySetA "http://a.com/" "http://a.com/g" ["http://a.com/g"]
        ⟨[], [], [], [{ etype := "unhandled_exception", text := "boom" }]⟩).buf = [] ∧
    (crawlPageC siteW pySetA "http://a.com/" "http://a.com/f" ["http://a.com/f"]
        ⟨[], [], [], []⟩).buf = [{ etype := "unhandled_exception", text := "boom" }] := by
  have h1 := (console_buffer_cleared_on_detect siteW pySetA "http://a.com/"
    "http://a.com/g" ["http://a.com/g"]
    ⟨[], [], [], [{ etype := "unhandled_exception", text := "boom" }]⟩).1 (some 200) rfl
  have h2 := (console_buffer_cleared_on_detect siteW pySetA "http://a.com/"
    "http://a.com/f" ["http://a.com/f"] ⟨[], [], [], []⟩).2 "timeout" rfl
  exact ⟨h1, h2.trans (by decide)⟩

end Vibe
